import Mathlib

/-!
# Verification of the EVM airdrop discovery pipeline

A shallow embedding, in Lean 4, of the core functions of the
airdrop-eligibility indexing pipeline (Python source under `src/`), together
with theorems settling the frozen claims about it.

Modelling conventions:
* Parsed JSON values are modelled by the inductive type `Json` below
  (numbers restricted to integers, which covers every value the claims
  touch).
* Python `dict.get(k, d)` on parsed-JSON dictionaries is modelled by
  `jlookup` plus `Option.getD`.
* A Python function that can raise an uncaught exception is modelled with
  `Option`/`Except`, `none`/`.error` standing for the raised exception.
* Database writes are modelled as pure state transformations; timestamps
  `CURRENT_TIMESTAMP` / `time.time()` are passed in as an explicit `now`.
* `keccak256` is not modelled: where the code derives a 4-byte selector
  from a function signature, the embedding carries the signature string
  itself.  No claim inspects the selector bytes; only success or failure of
  the derivation is observable.
-/

set_option maxRecDepth 4096

/-- Parsed JSON values (Python objects produced by `json.loads`). -/
inductive Json where
  | null
  | bool (b : Bool)
  | num (n : Int)
  | str (s : String)
  | arr (xs : List Json)
  | obj (kvs : List (String × Json))

/-- First-match association lookup, Python `dict[k]` / `k in dict`. -/
def jlookup : List (String × Json) → String → Option Json
  | [], _ => none
  | (k, v) :: rest, key => if k = key then some v else jlookup rest key

/-- Python truthiness of a parsed JSON value. -/
def Json.truthy : Json → Bool
  | .null => false
  | .bool b => b
  | .num n => n != 0
  | .str s => !s.isEmpty
  | .arr xs => !xs.isEmpty
  | .obj kvs => !kvs.isEmpty

/-- Is this JSON value a Python `dict`? -/
def Json.isObj : Json → Bool
  | .obj _ => true
  | _ => false

/-- Does this JSON value equal (`==` in Python) the given string? -/
def jsonIsStr (s : String) : Json → Bool
  | .str t => t = s
  | _ => false

/-- `d.get('impact')` for one detector entry (already known to be a dict
when used; non-dicts map to `null`, guarded by `Json.isObj` at call site). -/
def findingImpact : Json → Json
  | .obj dk => (jlookup dk "impact").getD .null
  | _ => .null

/-- `SlitherAnalyzer.classify_slither_report` (src/utils/slither_analyzer.py,
lines 145-169), restricted to the classification result.  The input is the
key/value list of the report dict; `none` models an uncaught Python
exception (e.g. `AttributeError` when `results` is not a dict or a detector
entry is not a dict). -/
def classifySlitherReport (kvs : List (String × Json)) : Option Int :=
  let success := (jlookup kvs "success").getD (Json.bool false)
  if success.truthy = false then some 1
  else
    match (jlookup kvs "results").getD (Json.obj []) with
    | Json.obj rkvs =>
        let detectors := (jlookup rkvs "detectors").getD Json.null
        if detectors.truthy = false then some 5
        else
          match detectors with
          | Json.arr ds =>
              if ds.all Json.isObj then
                let impacts := ds.map findingImpact
                if impacts.any (jsonIsStr "High") then some 3
                else if impacts.any (jsonIsStr "Medium") then some 2
                else if impacts.any (jsonIsStr "Low") then some 4
                else some 5
              else none
          | _ => none
    | _ => none

/-- A minimal detector finding with the given impact string. -/
def mkFinding (impact : String) : Json :=
  Json.obj [("impact", Json.str impact)]

/-- A slither report dict with the given `success` flag and detectors list. -/
def mkReport (success : Bool) (detectors : List Json) : List (String × Json) :=
  [("success", Json.bool success),
   ("results", Json.obj [("detectors", Json.arr detectors)])]

/-! ## Etherscan client (src/providers/etherscan_api_client.py) -/

/-- Does `p.data` occur as a prefix of some suffix of the list? -/
def substrAux (p : List Char) : List Char → Bool
  | [] => p.isEmpty
  | c :: rest => p.isPrefixOf (c :: rest) || substrAux p rest

/-- Is `p` a substring of `s` (Python `p in s` for strings)? -/
def pySubstr (p s : String) : Bool := substrAux p.data s.data

/-- Python `s.startswith(p)`. -/
def pyStartsWith (s p : String) : Bool := p.data.isPrefixOf s.data

/-- The observable outcome of the HTTP layer underneath
`EtherscanAPIClient._request`: one of the three transport failures, or a
decoded JSON payload. -/
inductive HttpOutcome where
  | httpStatusError
  | networkError
  | jsonDecodeError
  | payload (j : Json)

/-- Result of `EtherscanAPIClient._request`: `apiError` models a raised
`EtherscanAPIError`, `uncaught` models any other uncaught Python
exception. -/
inductive ReqOutcome where
  | apiError
  | uncaught
  | ok (j : Json)

/-- `EtherscanAPIClient._request` (lines 36-79): transport failures are
re-raised as `EtherscanAPIError`; a payload with `status == "0"` or
without a `result` member is an `EtherscanAPIError`; `in`-tests on
non-dict payloads follow Python semantics (membership for lists,
substring for strings, `TypeError` otherwise). -/
def etherscanRequest : HttpOutcome → ReqOutcome
  | .httpStatusError => .apiError
  | .networkError => .apiError
  | .jsonDecodeError => .apiError
  | .payload j =>
    match j with
    | Json.obj kvs =>
        if (match jlookup kvs "status" with
            | some v => jsonIsStr "0" v
            | none => false) then .apiError
        else if (jlookup kvs "result").isNone then .apiError
        else .ok (Json.obj kvs)
    | Json.arr xs =>
        if xs.any (jsonIsStr "status") then .uncaught
        else if !(xs.any (jsonIsStr "result")) then .apiError
        else .ok (Json.arr xs)
    | Json.str s =>
        if pySubstr "status" s then .uncaught
        else if !(pySubstr "result" s) then .apiError
        else .ok (Json.str s)
    | _ => .uncaught

/-- The `eth_call` result filter: accept only hex strings strictly longer
than `"0x"` (lines 149-154). -/
def callResultCheck : Json → Option String
  | Json.str s => if pyStartsWith s "0x" && s.length > 2 then some s else none
  | _ => none

/-- The `eth_getCode` result filter: accept any string starting `"0x"`
(lines 172-178). -/
def codeResultCheck : Json → Option String
  | Json.str s => if pyStartsWith s "0x" then some s else none
  | _ => none

/-- `EtherscanAPIClient.eth_call` (lines 133-157).  `.ok none` is the
Python `None` return; `.error ()` models an uncaught exception. -/
def ethCall (o : HttpOutcome) : Except Unit (Option String) :=
  match etherscanRequest o with
  | .apiError => .ok none
  | .uncaught => .error ()
  | .ok (Json.obj kvs) => .ok (callResultCheck ((jlookup kvs "result").getD Json.null))
  | .ok _ => .error ()

/-- `EtherscanAPIClient.eth_getCode` (lines 159-182). -/
def ethGetCode (o : HttpOutcome) : Except Unit (Option String) :=
  match etherscanRequest o with
  | .apiError => .ok none
  | .uncaught => .error ()
  | .ok (Json.obj kvs) => .ok (codeResultCheck ((jlookup kvs "result").getD Json.null))
  | .ok _ => .error ()

/-- Is this character a hexadecimal digit? -/
def isHexDig (c : Char) : Bool :=
  c.isDigit || ( 'a' ≤ c && c ≤ 'f') || ( 'A' ≤ c && c ≤ 'F')

/-- Numeric value of a hexadecimal digit. -/
def hexDigVal (c : Char) : Nat :=
  if c.isDigit then c.toNat - 48
  else if 'a' ≤ c && c ≤ 'f' then c.toNat - 87
  else c.toNat - 55

/-- Value of a nonempty all-hex digit string. -/
def hexVal (cs : List Char) : Option Nat :=
  if cs ≠ [] ∧ cs.all isHexDig then
    some (cs.foldl (fun a c => a * 16 + hexDigVal c) 0)
  else none

/-- Python `int(s, 16)`: optional sign, optional `0x`/`0X`, then at least
one hexadecimal digit (digit-group underscores are not modelled). -/
def pyIntHex (s : String) : Option Int :=
  let p1 : Bool × List Char :=
    match s.data with
    | '-' :: rest => (true, rest)
    | '+' :: rest => (false, rest)
    | cs => (false, cs)
  let p2 : List Char :=
    match p1.2 with
    | '0' :: 'x' :: rest => rest
    | '0' :: 'X' :: rest => rest
    | cs => cs
  match hexVal p2 with
  | some n => some (if p1.1 then -(n : Int) else (n : Int))
  | none => none

/-- `EtherscanAPIClient.get_latest_block_number` (lines 82-90): any
`_request` failure, non-string `result`, or unparsable hex propagates an
exception. -/
def getLatestBlockNumber (o : HttpOutcome) : Except Unit Int :=
  match etherscanRequest o with
  | .apiError => .error ()
  | .uncaught => .error ()
  | .ok j =>
    match j with
    | Json.obj kvs =>
        match jlookup kvs "result" with
        | some (Json.str s) =>
            match pyIntHex s with
            | some n => .ok n
            | none => .error ()
        | _ => .error ()
    | _ => .error ()

/-! ## JSON text: validity (`json.loads` succeeds) and `json.dumps` -/

/-- Skip JSON whitespace. -/
def jWs (cs : List Char) : List Char :=
  cs.dropWhile (fun c => c = ' ' || c = '\t' || c = '\n' || c = '\r')

/-- Consume the body of a JSON string literal after the opening quote. -/
def jStrBody : Nat → List Char → Option (List Char)
  | 0, _ => none
  | _, [] => none
  | fuel + 1, c :: rest =>
    if c = '"' then some rest
    else if c = '\\' then
      match rest with
      | [] => none
      | e :: r2 =>
        if e = 'u' then
          match r2 with
          | a :: b :: c2 :: d :: r3 =>
              if isHexDig a && isHexDig b && isHexDig c2 && isHexDig d then
                jStrBody fuel r3
              else none
          | _ => none
        else if e = '"' || e = '\\' || e = '/' || e = 'b' || e = 'f' ||
                e = 'n' || e = 'r' || e = 't' then jStrBody fuel r2
        else none
    else if c.toNat < 32 then none
    else jStrBody fuel rest

/-- Consume the integer part of a JSON number. -/
def jIntPart : List Char → Option (List Char)
  | [] => none
  | c :: rest =>
      if c = '0' then some rest
      else if c.isDigit then some (rest.dropWhile Char.isDigit)
      else none

/-- Consume an optional fraction part. -/
def jFrac (cs : List Char) : Option (List Char) :=
  match cs with
  | '.' :: rest =>
      match rest with
      | d :: _ => if d.isDigit then some (rest.dropWhile Char.isDigit) else none
      | [] => none
  | _ => some cs

/-- Consume the signed digits of an exponent. -/
def jExpTail (cs : List Char) : Option (List Char) :=
  let cs2 := match cs with
    | '+' :: r => r
    | '-' :: r => r
    | _ => cs
  match cs2 with
  | d :: _ => if d.isDigit then some (cs2.dropWhile Char.isDigit) else none
  | [] => none

/-- Consume an optional exponent part. -/
def jExp (cs : List Char) : Option (List Char) :=
  match cs with
  | 'e' :: rest => jExpTail rest
  | 'E' :: rest => jExpTail rest
  | _ => some cs

/-- Consume a JSON number. -/
def jNum (cs : List Char) : Option (List Char) :=
  let cs1 := match cs with
    | '-' :: r => r
    | _ => cs
  match jIntPart cs1 with
  | none => none
  | some r1 =>
    match jFrac r1 with
    | none => none
    | some r2 => jExp r2

mutual

/-- Consume one JSON value (Python `json.loads` grammar, including the
non-standard `NaN` / `Infinity` accepted by default). -/
def jVal : Nat → List Char → Option (List Char)
  | 0, _ => none
  | fuel + 1, cs =>
    match jWs cs with
    | 'n' :: 'u' :: 'l' :: 'l' :: rest => some rest
    | 't' :: 'r' :: 'u' :: 'e' :: rest => some rest
    | 'f' :: 'a' :: 'l' :: 's' :: 'e' :: rest => some rest
    | 'N' :: 'a' :: 'N' :: rest => some rest
    | 'I' :: 'n' :: 'f' :: 'i' :: 'n' :: 'i' :: 't' :: 'y' :: rest => some rest
    | '-' :: 'I' :: 'n' :: 'f' :: 'i' :: 'n' :: 'i' :: 't' :: 'y' :: rest => some rest
    | '"' :: rest => jStrBody (rest.length + 1) rest
    | '[' :: rest =>
        (match jWs rest with
         | ']' :: r2 => some r2
         | _ => jArrSeq fuel rest)
    | '\x7b' :: rest =>
        (match jWs rest with
         | '\x7d' :: r2 => some r2
         | _ => jObjSeq fuel rest)
    | cs2 => jNum cs2

/-- Consume the comma-separated items of a nonempty array. -/
def jArrSeq : Nat → List Char → Option (List Char)
  | 0, _ => none
  | fuel + 1, cs =>
    match jVal fuel cs with
    | none => none
    | some r1 =>
      match jWs r1 with
      | ',' :: r2 => jArrSeq fuel r2
      | ']' :: r2 => some r2
      | _ => none

/-- Consume the comma-separated members of a nonempty object. -/
def jObjSeq : Nat → List Char → Option (List Char)
  | 0, _ => none
  | fuel + 1, cs =>
    match jWs cs with
    | '"' :: r1 =>
      (match jStrBody (r1.length + 1) r1 with
       | none => none
       | some r2 =>
         match jWs r2 with
         | ':' :: r3 =>
           (match jVal fuel r3 with
            | none => none
            | some r4 =>
              match jWs r4 with
              | ',' :: r5 => jObjSeq fuel r5
              | '\x7d' :: r5 => some r5
              | _ => none)
         | _ => none)
    | _ => none

end

/-- Does Python `json.loads` accept this string?  (The fuel bounds nesting
depth plus item count, both below twice the length.) -/
def jsonValidStr (s : String) : Bool :=
  match jVal (2 * s.length + 4) s.data with
  | some rest => (jWs rest).isEmpty
  | none => false

/-- One hexadecimal digit character (lowercase), for `\uXXXX` escapes. -/
def hexDigChar (n : Nat) : Char :=
  if n < 10 then Char.ofNat (48 + n) else Char.ofNat (87 + n)

/-- Four-hex-digit rendering of a code point. -/
def hex4 (n : Nat) : String :=
  String.mk [hexDigChar ((n / 4096) % 16), hexDigChar ((n / 256) % 16),
             hexDigChar ((n / 16) % 16), hexDigChar (n % 16)]

/-- `json.dumps` escaping of one character (`ensure_ascii=True` default;
code points above 0xFFFF, which need surrogate pairs, are not modelled). -/
def escChar (c : Char) : String :=
  if c = '"' then "\\\""
  else if c = '\\' then "\\\\"
  else if c = '\n' then "\\n"
  else if c = '\t' then "\\t"
  else if c = '\r' then "\\r"
  else if c = '\x08' then "\\b"
  else if c = '\x0c' then "\\f"
  else if c.toNat < 32 || c.toNat > 126 then "\\u" ++ hex4 c.toNat
  else String.singleton c

/-- `json.dumps` of a string value. -/
def pyDumpStr (s : String) : String :=
  "\"" ++ String.join (s.data.map escChar) ++ "\""

mutual

/-- Python `json.dumps` with default separators. -/
def Json.dumps : Json → String
  | .null => "null"
  | .bool true => "true"
  | .bool false => "false"
  | .num n => toString n
  | .str s => pyDumpStr s
  | .arr xs => "[" ++ dumpsItems xs ++ "]"
  | .obj kvs => "\x7b" ++ dumpsMembers kvs ++ "\x7d"

/-- Comma-separated array items. -/
def dumpsItems : List Json → String
  | [] => ""
  | [x] => Json.dumps x
  | x :: y :: rest => Json.dumps x ++ ", " ++ dumpsItems (y :: rest)

/-- Comma-separated object members. -/
def dumpsMembers : List (String × Json) → String
  | [] => ""
  | [(k, v)] => pyDumpStr k ++ ": " ++ Json.dumps v
  | (k, v) :: m :: rest =>
      pyDumpStr k ++ ": " ++ Json.dumps v ++ ", " ++ dumpsMembers (m :: rest)

end

/-- Value of a decimal digit string. -/
def decVal (cs : List Char) : Nat :=
  cs.foldl (fun a c => a * 10 + (c.toNat - 48)) 0

/-- Python `int(s)` on strings: optional sign then decimal digits
(digit-group underscores and surrounding whitespace not modelled). -/
def pyIntDec (s : String) : Option Int :=
  let p1 : Bool × List Char :=
    match s.data with
    | '-' :: rest => (true, rest)
    | '+' :: rest => (false, rest)
    | cs => (false, cs)
  if p1.2 ≠ [] ∧ p1.2.all Char.isDigit then
    some (if p1.1 then -(decVal p1.2 : Int) else (decVal p1.2 : Int))
  else none

/-! ## TxScanner source canonicalization
(src/contract_indexer/evm_transaction_scanner.py, lines 74-112) -/

/-- Python `str.strip` whitespace set. -/
def pyWsChar (c : Char) : Bool :=
  c = ' ' || c = '\t' || c = '\n' || c = '\r' || c = '\x0b' || c = '\x0c'

/-- Python `s.strip()`. -/
def pyStrip (s : String) : String :=
  String.mk (((s.data.dropWhile pyWsChar).reverse.dropWhile pyWsChar).reverse)

/-- Python `s.endswith(p)`. -/
def pyEndsWith (s p : String) : Bool := p.data.isSuffixOf s.data

/-- Python `s[1:-1]`. -/
def pySlice1m1 (s : String) : String :=
  String.mk ((s.data.drop 1).dropLast)

/-- The multi-file source canonicalization performed by
`EvmTransactionScanner._process_transaction` on a verified contract's
`SourceCode`: Etherscan `{{...}}` loses one brace layer and the remainder
must be JSON; a `{`-prefixed string must be JSON and is kept as is;
anything else is wrapped as a single-file object.  `.error ()` models the
raised `ValueError` that aborts the batch. -/
def canonicalizeSource (sourceCodeOriginal : String) : Except Unit String :=
  let cleaned := pyStrip sourceCodeOriginal
  if pyStartsWith cleaned "\x7b\x7b" && pyEndsWith cleaned "\x7d\x7d" then
    let inner := pySlice1m1 cleaned
    if jsonValidStr inner then .ok inner else .error ()
  else if pyStartsWith cleaned "\x7b" then
    if jsonValidStr cleaned then .ok cleaned else .error ()
  else .ok (Json.dumps (Json.obj [("source", Json.str cleaned)]))

/-! ## SourceScanner: LLM analysis and airdrop persistence
(src/utils/llm_airdrop_analyzer.py, src/contract_indexer/evm_contract_source_scanner.py,
src/db_class/repositories/evm_contract_source_scanner_repository.py) -/

/-- Python `dict.get(k)`: `None` for a missing key and for a JSON `null`
value (indistinguishable at the call sites). -/
def pyGet (kvs : List (String × Json)) (k : String) : Option Json :=
  match jlookup kvs k with
  | some Json.null => none
  | x => x

/-- Truthiness of a `dict.get` result. -/
def pyTruthyOpt : Option Json → Bool
  | none => false
  | some j => j.truthy

/-- `LLMAirdropAnalyzer._validate_llm_response` (lines 75-99), applied to
the `json.loads` outcome of the LLM content string: `none` for a parse
failure, a non-object, the empty object, or a missing
`eligibility_function_abi` key. -/
def validateLLMResponse : Except Unit Json → Option Json
  | .error _ => none
  | .ok j =>
    match j with
    | Json.obj kvs =>
        if kvs.isEmpty then none
        else if (jlookup kvs "eligibility_function_abi").isNone then none
        else some (Json.obj kvs)
    | _ => none

/-- Outcome of the LLM client call inside
`LLMAirdropAnalyzer.analyze_contract`. -/
inductive LLMOutcome where
  | apiError
  | emptyResponse
  | response (parsed : Except Unit Json)

/-- `LLMAirdropAnalyzer.analyze_contract` (lines 101-125): API errors
re-raise (`.error ()`), a falsy content string yields `None`, otherwise
the response is validated. -/
def analyzeContract : LLMOutcome → Except Unit (Option Json)
  | .apiError => .error ()
  | .emptyResponse => .ok none
  | .response pr => .ok (validateLLMResponse pr)

/-- Python `int(x)` on a parsed JSON value (`TypeError` on the rest). -/
def pyToInt : Json → Option Int
  | Json.num n => some n
  | Json.bool b => some (if b then 1 else 0)
  | Json.str s => pyIntDec s
  | _ => none

/-- `EvmContractSourceScannerRepository._parse_llm_time_field`
(lines 62-73): `(abi_json_or_none, timestamp_or_none)`. -/
def parseLLMTimeField : Option Json → Option String × Option Int
  | none => (none, none)
  | some Json.null => (none, none)
  | some (Json.bool b) => (none, some (if b then 1 else 0))
  | some (Json.num n) => (none, some n)
  | some (Json.obj kvs) => (some (Json.dumps (Json.obj kvs)), none)
  | some (Json.arr xs) => (some (Json.dumps (Json.arr xs)), none)
  | some (Json.str s) =>
      match pyIntDec s with
      | some n => (none, some n)
      | none => if jsonValidStr s then (some s, none) else (none, none)

/-- The collected field types of a function-ABI `inputs` list; `none`
models the `TypeError`/`AttributeError` paths that make
`get_function_selector` return `None`. -/
def typesOf : List Json → Option (List String)
  | [] => some []
  | Json.obj kvs :: rest =>
      match jlookup kvs "type" with
      | some (Json.str t) =>
          (match typesOf rest with
           | some ts => some (t :: ts)
           | none => none)
      | _ => none
  | _ :: _ => none

/-- `get_function_selector` (src/utils/contract_utils.py, lines 11-57),
with the keccak hash elided: the embedding returns the signature string
whose 4-byte hash the code would return; only success or failure is
observable to any claim.  Non-string function names (which Python would
stringify) are not modelled. -/
def getFunctionSelector (j : Json) : Option String :=
  match j with
  | Json.obj kvs =>
    match jlookup kvs "type" with
    | some (Json.str "function") =>
      (match pyGet kvs "name" with
       | some (Json.str nm) =>
          if nm.isEmpty then none
          else
            (match (match jlookup kvs "inputs" with
                    | none => Json.arr []
                    | some v => v) with
             | Json.arr inps =>
                 (match typesOf inps with
                  | some ts => some (nm ++ "(" ++ ",".intercalate ts ++ ")")
                  | none => none)
             | _ => none)
       | _ => none)
    | _ => none
  | _ => none

/-- Python dict assignment `d[k] = v`. -/
def setKey : List (String × Json) → String → Json → List (String × Json)
  | [], k, v => [(k, v)]
  | (k0, v0) :: rest, k, v =>
      if k0 = k then (k, v) :: rest else (k0, v0) :: setKey rest k v

/-- Stage 4 of `EvmContractSourceScanner._process_source` (lines 104-125):
when `token_address` is falsy and `get_token_function_abi` truthy, a
selector is derived and an `eth_call` + address decode attempted;
`found` is the decoded checksum address when that path succeeded
(`none` models selector failure, a failed call, or a failed decode, all
of which leave the dict unchanged). -/
def stage4TokenAddress (llmKvs : List (String × Json))
    (found : Option String) : List (String × Json) :=
  if pyTruthyOpt (pyGet llmKvs "token_address") = false
      && pyTruthyOpt (pyGet llmKvs "get_token_function_abi") then
    match getFunctionSelector ((pyGet llmKvs "get_token_function_abi").getD Json.null) with
    | some _ =>
        (match found with
         | some a => setKey llmKvs "token_address" (Json.str a)
         | none => llmKvs)
    | none => llmKvs
  else llmKvs

/-- The row inserted into `evm_airdrop_eligibility_contract` by
`save_airdrop_contract`; `*Col` fields are the serialized column values
(`none` = SQL NULL). -/
structure AirdropInsert where
  eligibilityAbiVal : Json
  eligibilityAbiCol : Option String
  getTokenAbiCol : Option String
  claimStartAbiCol : Option String
  claimEndAbiCol : Option String
  claimStartTs : Option Int
  claimEndTs : Option Int
  tokenAddress : Option Json
  tokenTicker : Option Json
  tokenDecimals : Option Json
  tokenAnalysisStatus : Int
  activeStatus : Int

/-- `end_ts and end_ts < int(time.time())` — truthy timestamp already in
the past. -/
def endTsExpired (ee2 : Option Int) (now : Int) : Bool :=
  match ee2 with
  | some t => t != 0 && t < now
  | none => false

/-- `token_metadata.get('possible_spam', False) is True`. -/
def spamIsTrue (m : List (String × Json)) : Bool :=
  match jlookup m "possible_spam" with
  | some (Json.bool true) => true
  | _ => false

/-- `EvmContractSourceScannerRepository.save_airdrop_contract`
(lines 75-169), restricted to the inserted row; `none` models the
(unreachable after validation) `KeyError` on
`llm_result['eligibility_function_abi']`. -/
def saveAirdropContract (llmKvs : List (String × Json))
    (meta : Option (List (String × Json))) (now : Int) : Option AirdropInsert :=
  match jlookup llmKvs "eligibility_function_abi" with
  | none => none
  | some ev =>
    let se := parseLLMTimeField (pyGet llmKvs "claim_start_getter_abi")
    let ee := parseLLMTimeField (pyGet llmKvs "claim_end_getter_abi")
    let ge := parseLLMTimeField (pyGet llmKvs "get_token_function_abi")
    let ticker0 := pyGet llmKvs "token_ticker"
    let decimals0 := pyGet llmKvs "token_decimals"
    let merged : Option Json × Option Json × Int × Int :=
      match meta with
      | some m =>
          ((if pyTruthyOpt ticker0 = false then pyGet m "symbol" else ticker0),
           (if decimals0.isNone then
              (match pyGet m "decimals" with
               | none => some (Json.num 18)
               | some v => some (Json.num ((pyToInt v).getD 18)))
            else decimals0),
           (if spamIsTrue m then 0 else 1),
           (if spamIsTrue m then 2 else 0))
      | none => (ticker0, decimals0, 1, 0)
    let active1 : Int :=
      if decide (merged.2.2.1 = 1) && endTsExpired ee.2 now then 0
      else merged.2.2.1
    some {
      eligibilityAbiVal := ev
      eligibilityAbiCol := some (Json.dumps ev)
      getTokenAbiCol := ge.1
      claimStartAbiCol := se.1
      claimEndAbiCol := ee.1
      claimStartTs := se.2
      claimEndTs := ee.2
      tokenAddress := pyGet llmKvs "token_address"
      tokenTicker := merged.1
      tokenDecimals := merged.2.1
      tokenAnalysisStatus := merged.2.2.2
      activeStatus := active1 }

/-- Outcome of the Moralis token-metadata call in stage 5. -/
inductive MetaOutcome where
  | raised
  | got (m : Option (List (String × Json)))

/-- Overall outcome of `_process_source` for one source row: `aborted`
models an exception that rolls the whole batch back, `done st r` models a
commit with `processing_status = st` on the source and inserted airdrop
row `r`. -/
inductive SourceOutcome where
  | aborted
  | done (finalStatus : Int) (inserted : Option AirdropInsert)

/-- `EvmContractSourceScanner._process_source` (lines 62-147), with its
external interactions as parameters: `abiPass` is the keyword-filter
verdict, `slitherStatus` the classification (or `none` when
classification raised), `llm` the LLM call outcome, `found` the stage-4
address resolution outcome, `meta` the stage-5 metadata outcome. -/
def processSource (abiPass : Bool) (slitherStatus : Option Int)
    (llm : LLMOutcome) (found : Option String)
    (meta : MetaOutcome) (now : Int) : SourceOutcome :=
  if abiPass = false then .done 2 none
  else
    match slitherStatus with
    | none => .aborted
    | some st =>
      if st = 4 ∨ st = 5 then
        match analyzeContract llm with
        | .error _ => .aborted
        | .ok none => .done 2 none
        | .ok (some r) =>
          match r with
          | Json.obj llmKvs =>
              if pyTruthyOpt (pyGet (stage4TokenAddress llmKvs found) "token_address") then
                match meta with
                | .raised => .aborted
                | .got m =>
                    (match saveAirdropContract (stage4TokenAddress llmKvs found) m now with
                     | some row => .done 2 (some row)
                     | none => .aborted)
              else
                (match saveAirdropContract (stage4TokenAddress llmKvs found) none now with
                 | some row => .done 2 (some row)
                 | none => .aborted)
          | _ => .aborted
      else .done 2 none

/-- The source's final `processing_status` (`none` = batch aborted). -/
def SourceOutcome.statusOf : SourceOutcome → Option Int
  | .aborted => none
  | .done st _ => some st

/-- The inserted airdrop row, if any. -/
def SourceOutcome.insertedOf : SourceOutcome → Option AirdropInsert
  | .aborted => none
  | .done _ r => r

/-- Modelled from the spec: "`eligibility_function_abi` ... encodes a
function with exactly one `address` input" — the JSON value is an object
whose `inputs` member is a one-element list whose element's `type` is
`"address"`.  Used only to compare the spec's invariant against the
code's behaviour. -/
def encodesOneAddressInput (j : Json) : Bool :=
  match j with
  | Json.obj kvs =>
      match jlookup kvs "inputs" with
      | some (Json.arr [Json.obj inp]) =>
          (match jlookup inp "type" with
           | some (Json.str t) => t = "address"
           | _ => false)
      | _ => false
  | _ => false

/-- An LLM response that passes validation although its
`eligibility_function_abi` has an empty `inputs` list. -/
def c2BadLLM : Json :=
  Json.obj [("eligibility_function_abi",
    Json.obj [("name", Json.str "claim"), ("type", Json.str "function"),
              ("inputs", Json.arr [])])]

/-- The row the pipeline inserts for `c2BadLLM`. -/
def c2Row : AirdropInsert :=
  match processSource true (some 5) (LLMOutcome.response (Except.ok c2BadLLM))
      none (MetaOutcome.got none) 0 with
  | SourceOutcome.done _ (some row) => row
  | _ =>
      { eligibilityAbiVal := Json.null, eligibilityAbiCol := none,
        getTokenAbiCol := none, claimStartAbiCol := none,
        claimEndAbiCol := none, claimStartTs := none, claimEndTs := none,
        tokenAddress := none, tokenTicker := none, tokenDecimals := none,
        tokenAnalysisStatus := 0, activeStatus := 0 }

/-! ## NetworkScanner (src/contract_indexer/evm_scanner.py,
src/db_class/repositories/evm_scanner_repository.py) -/

/-- One `evm_network` row (the columns the scanner touches). -/
structure EvmNetwork where
  chainId : Int
  processingStatus : Int
  lastDiscovered : Option Int
  finalityDepth : Int
  discoveredAt : Int

/-- The provider's answer to `get_block_by_number`: `err` models a raised
exception (transport failure, `status=0`, or a `number` field that
`int(_, 16)` rejects — all of which abort the batch), `invalid` a falsy
result or one missing `number`/`hash` (row skipped with a warning),
`valid num hsh` a block dict whose parsed number is `num`. -/
inductive BlockResp where
  | err
  | invalid
  | valid (num : Int) (hsh : String)

/-- The provider as seen by one `process_network` run. -/
structure Provider where
  latest : Except Unit Int
  resp : Int → BlockResp

/-- Scanner configuration. -/
structure ScanCfg where
  catchUpThreshold : Int
  catchUpBatchSize : Int
  followBatchSize : Int

/-- One committed batch, recorded for the invariants: the range scanned,
the network's `last_discovered_block_number` before, the `evm_block`
table before, the rows newly inserted, and the new
`last_discovered_block_number`. -/
structure BatchRec where
  bstart : Int
  bend : Int
  oldLast : Option Int
  preBlocks : List (Int × Int × String)
  newRows : List (Int × Int × String)
  newLast : Int

/-- State threaded through the batch loop. -/
structure ScanState where
  blocks : List (Int × Int × String)
  last : Option Int
  committed : List BatchRec

/-- Does `evm_block` already hold `(chain_id, block_number)`?  (the
`INSERT IGNORE` unique key) -/
def hasBlock (blocks : List (Int × Int × String)) (chain num : Int) : Bool :=
  blocks.any (fun b => b.1 = chain && b.2.1 = num)

/-- `INSERT IGNORE` of a row list: returns the new table and the rows
actually inserted. -/
def insertIgnore (blocks : List (Int × Int × String)) :
    List (Int × Int × String) →
      List (Int × Int × String) × List (Int × Int × String)
  | [] => (blocks, [])
  | b :: rest =>
      if hasBlock blocks b.1 b.2.1 then insertIgnore blocks rest
      else
        let r := insertIgnore (blocks ++ [b]) rest
        (r.1, b :: r.2)

/-- The inclusive integer range `[start, stop]`. -/
def intRange (start stop : Int) : List Int :=
  (List.range (stop + 1 - start).toNat).map (fun (i : Nat) => start + (i : Int))

/-- Did this response raise? -/
def BlockResp.isErr : BlockResp → Bool
  | .err => true
  | _ => false

/-- The provider responses gathered for one batch. -/
def batchResponses (p : Provider) (bstart bend : Int) : List BlockResp :=
  (intRange bstart bend).map p.resp

/-- The `(chain_id, block_number, block_hash)` tuples accumulated from the
valid responses of one batch (`EvmScanner._process_batch`, lines 149-156). -/
def blocksToInsert (chain : Int) (p : Provider) (bstart bend : Int) :
    List (Int × Int × String) :=
  (batchResponses p bstart bend).filterMap (fun r =>
    match r with
    | BlockResp.valid n h => some (chain, n, h)
    | _ => none)

/-- `EvmScanner._process_batch` (lines 134-175): one transaction that
inserts the batch's blocks and sets `last_discovered_block_number` to the
batch end; any raised provider call rolls the whole batch back (`none`). -/
def processBatch (chain : Int) (p : Provider) (st : ScanState)
    (bstart bend : Int) : Option ScanState :=
  if (batchResponses p bstart bend).any BlockResp.isErr then none
  else
    let ins := insertIgnore st.blocks (blocksToInsert chain p bstart bend)
    some {
      blocks := ins.1
      last := some bend
      committed := st.committed ++
        [{ bstart := bstart, bend := bend, oldLast := st.last,
           preBlocks := st.blocks, newRows := ins.2, newLast := bend }] }

/-- The batch loop (lines 101-109): commits batches in order and stops at
the first failure; the `Bool` records whether it aborted. -/
def loopGo (chain : Int) (p : Provider) :
    ScanState → List (Int × Int) → ScanState × Bool
  | st, [] => (st, false)
  | st, (s, e) :: rest =>
      match processBatch chain p st s e with
      | none => (st, true)
      | some st2 => loopGo chain p st2 rest

/-- Python `range(start, safe+1, bs)` (for `bs ≥ 1`), paired with the
batch ends `min(start+bs-1, safe)` (line 102). -/
def batchRanges : Nat → Int → Int → Int → List (Int × Int)
  | 0, _, _, _ => []
  | fuel + 1, start, safe, bs =>
      if start > safe then []
      else (start, min (start + bs - 1) safe) :: batchRanges fuel (start + bs) safe bs

/-- The batch loop over `range(start, safe+1, batch_size)`.  A
`batch_size` of `0` makes Python's `range` raise (body fails before any
batch); a negative one yields an empty range (loop body never runs). -/
def runRanges (chain : Int) (p : Provider) (st0 : ScanState)
    (start safe bs : Int) : ScanState × Bool :=
  if bs = 0 then (st0, true)
  else if bs < 0 then (st0, false)
  else loopGo chain p st0 (batchRanges (safe + 1 - start).toNat start safe bs)

/-- The scan body of `EvmScanner.process_network` (lines 73-112): latest
block, safe head, start block (cold start = safe head), batch-size mode
choice, then the batch loop. -/
def scanBody (cfg : ScanCfg) (net : EvmNetwork) (p : Provider)
    (blocks0 : List (Int × Int × String)) : ScanState × Bool :=
  let st0 : ScanState := { blocks := blocks0, last := net.lastDiscovered, committed := [] }
  match p.latest with
  | .error _ => (st0, true)
  | .ok latest =>
      let safe := latest - net.finalityDepth
      let start := match net.lastDiscovered with
        | none => safe
        | some l => l + 1
      if start > safe then (st0, false)
      else
        runRanges net.chainId p st0 start safe
          (if safe - start + 1 > cfg.catchUpThreshold
           then cfg.catchUpBatchSize else cfg.followBatchSize)

/-- Result of one `process_network` invocation. -/
structure NetResult where
  network : EvmNetwork
  blocks : List (Int × Int × String)
  committed : List BatchRec
  bodyFailed : Bool

/-- `EvmScanner.process_network` (lines 50-131): lock the network
(`processing_status := 1`), run the scan body (whose batches update
`last_discovered_block_number`), and — in the `finally` block, whatever
happened — set `processing_status := 0` and refresh `discovered_at`. -/
def processNetwork (cfg : ScanCfg) (net : EvmNetwork) (p : Provider)
    (blocks0 : List (Int × Int × String)) (now : Int) : NetResult :=
  let r := scanBody cfg net p blocks0
  { network := { net with
      processingStatus := 0
      discoveredAt := now
      lastDiscovered := r.1.last },
    blocks := r.1.blocks, committed := r.1.committed, bodyFailed := r.2 }

/-- Largest `block_number` among a list of inserted rows. -/
def maxBlockNum : List (Int × Int × String) → Option Int
  | [] => none
  | b :: rest =>
      match maxBlockNum rest with
      | none => some b.2.1
      | some m => some (max b.2.1 m)

/-- The per-committed-batch invariant (see `claim_C3`): the new
`last_discovered_block_number` is the batch end, strictly above the old
value; every newly inserted row lies in the batch range; and the maximum
inserted block number equals the new `last_discovered_block_number`
whenever the batch-end block got a valid response and was not already
present. -/
def GoodBatch (chain : Int) (p : Provider) (b : BatchRec) : Prop :=
  b.newLast = b.bend ∧
  (∀ l, b.oldLast = some l → l < b.newLast) ∧
  (∀ row ∈ b.newRows, row.1 = chain ∧ b.bstart ≤ row.2.1 ∧ row.2.1 ≤ b.newLast) ∧
  (∀ hsh, p.resp b.bend = BlockResp.valid b.bend hsh →
      hasBlock b.preBlocks chain b.bend = false →
      maxBlockNum b.newRows = some b.newLast)

/-- Chained batch ranges: each is nonempty, the first starts just above
the current `last_discovered_block_number`, and each subsequent one
starts just above the previous end. -/
inductive Chained : Option Int → List (Int × Int) → Prop where
  | nil : ∀ l, Chained l []
  | cons : ∀ l s e rest, s ≤ e → (l = none ∨ l = some (s - 1)) →
      Chained (some e) rest → Chained l ((s, e) :: rest)

/-- Concrete network for the C3 counterexample run. -/
def c3net : EvmNetwork :=
  { chainId := 1, processingStatus := 0, lastDiscovered := some 4,
    finalityDepth := 10, discoveredAt := 0 }

/-- Concrete provider for the C3 counterexample run: latest block 16, a
valid answer for block 5, but a falsy/incomplete answer for block 6
(e.g. a lagging node returning `result: null`). -/
def c3prov : Provider :=
  { latest := .ok 16,
    resp := fun k => if k = 5 then BlockResp.valid 5 "0xa" else BlockResp.invalid }

/-- Configuration for the C3 counterexample run. -/
def c3cfg : ScanCfg :=
  { catchUpThreshold := 10, catchUpBatchSize := 50, followBatchSize := 10 }

/-! ## DateScanner claim-end step
(src/utils/contract_utils.py lines 88-119,
src/contract_indexer/evm_contract_date_scanner.py lines 143-243,
src/db_class/repositories/evm_contract_date_scanner_repository.py) -/

/-- `decode_timestamp_from_eth_call`: `None` for a falsy/odd result or a
value above 10^10 (garbage heuristic), `0` for a zero word, otherwise the
decoded `uint256`.  The input is the `eth_call` return (possibly `None`). -/
def decodeTimestampFromEthCall (result : Option String) : Option Int :=
  match result with
  | none => none
  | some s =>
      if s.data.isEmpty || !(pyStartsWith s "0x") then none
      else
        match pyIntHex s with
        | none => none
        | some t =>
            if t = 0 then some 0
            else if t > 10000000000 then none
            else some t

/-- One `evm_airdrop_eligibility_contract` row, restricted to the columns
the DateScanner's claim steps touch. -/
structure EligRow where
  claimEndGetterAbi : Option String
  claimEndTimestamp : Option Int
  claimStartGetterAbi : Option String
  claimStartTimestamp : Option Int
  activeStatus : Int

/-- `EvmContractDateScannerRepository.invalidate_claim_end_abi`. -/
def invalidateClaimEndAbi (r : EligRow) : EligRow :=
  { r with claimEndGetterAbi := none }

/-- `EvmContractDateScannerRepository.update_claim_end_timestamp`. -/
def updateClaimEndTimestamp (r : EligRow) (t : Int) (active : Int) : EligRow :=
  { r with claimEndTimestamp := some t, activeStatus := active }

/-- Outcome of one gathered `eth_call` (an exception leaves the row
untouched: `continue`). -/
inductive ApiResult where
  | exn
  | res (r : Option String)

/-- The claim-end arm of
`EvmContractDateScanner._process_claim_timestamp_check` step 6
(lines 205-228) for one selected row. -/
def processClaimEndRow (now : Int) (row : EligRow) : ApiResult → EligRow
  | .exn => row
  | .res r =>
      match decodeTimestampFromEthCall r with
      | none => invalidateClaimEndAbi row
      | some t =>
          if t = 0 then invalidateClaimEndAbi row
          else updateClaimEndTimestamp row t (if t ≤ now then 0 else 1)

/-! ## Static-analyzer file preparation (src/utils/slither_analyzer.py,
lines 62-118) -/

/-- Split a character list at `'/'`. -/
def splitSlashAux : List Char → List Char → List String
  | acc, [] => [String.mk acc.reverse]
  | acc, c :: rest =>
      if c = '/' then String.mk acc.reverse :: splitSlashAux [] rest
      else splitSlashAux (c :: acc) rest

/-- Lexical `os.path.realpath` of an absolute path with no symlinks:
normalize `.`/`..`/empty segments. -/
def realpathNorm (p : String) : String :=
  let segs := splitSlashAux [] p.data
  let stack := segs.foldl (fun st seg =>
    if seg = "" || seg = "." then st
    else if seg = ".." then st.dropLast
    else st ++ [seg]) ([] : List String)
  "/" ++ "/".intercalate stack

/-- `os.path.join(a, b)` for two components. -/
def pyPathJoin (a b : String) : String :=
  if pyStartsWith b "/" then b
  else if pyEndsWith a "/" then a ++ b
  else a ++ "/" ++ b

/-- Longest common character prefix of two strings. -/
def commonPrefAux : List Char → List Char → List Char
  | x :: xs, y :: ys => if x = y then x :: commonPrefAux xs ys else []
  | _, _ => []

/-- `os.path.commonprefix([a, b])`: plain string comparison, not
path-aware. -/
def commonPref2 (a b : String) : String :=
  String.mk (commonPrefAux a.data b.data)

/-- One `sources` entry of `SlitherAnalyzer._prepare_source_files`
(lines 93-112): compute `realpath(join(root, relative))` and write there
if `os.path.commonprefix([root, full]) == root`, else raise
`PermissionError` (`none`).  `some path` is the file path written. -/
def prepareEntryWrite (root rel : String) : Option String :=
  let full := realpathNorm (pyPathJoin root rel)
  if commonPref2 root full = root then some full else none

/-- Is `p` inside the directory `root` (equal to it or below it)? -/
def insideRoot (root p : String) : Bool :=
  p = root || pyStartsWith p (root ++ "/")

-- ===================================================================
-- Theorems
-- ===================================================================

theorem mkFinding_isObj (imps : List String) :
    (imps.map mkFinding).all Json.isObj = true := by
  induction imps with
  | nil => rfl
  | cons i rest ih => simp [List.all_cons, ih, mkFinding, Json.isObj]

theorem not_exists_impact {imps : List String} {s : String} (h : s ∉ imps) :
    ¬∃ a ∈ imps, jsonIsStr s (findingImpact (mkFinding a)) = true := by
  rintro ⟨a, ha, hj⟩
  exact h ((of_decide_eq_true hj) ▸ ha)

/-- C5: `classify_slither_report` returns status 1 whenever the report's
`success` field is `false` (regardless of the detector list); with
`success=true`, an empty detector list yields 5, a detector list containing
a `High` impact yields 3, else `Medium` yields 2, else `Low` yields 4, and
none of the three yields 5.  In particular a report with one `High` and one
`Low` finding yields 3, and `success=true` with empty `detectors` yields 5. -/
theorem claim_C5_slither_classification :
    (∀ dets : List Json, classifySlitherReport (mkReport false dets) = some 1) ∧
    (classifySlitherReport (mkReport true []) = some 5) ∧
    (∀ imps : List String, "High" ∈ imps →
      classifySlitherReport (mkReport true (imps.map mkFinding)) = some 3) ∧
    (∀ imps : List String, "High" ∉ imps → "Medium" ∈ imps →
      classifySlitherReport (mkReport true (imps.map mkFinding)) = some 2) ∧
    (∀ imps : List String, "High" ∉ imps → "Medium" ∉ imps → "Low" ∈ imps →
      classifySlitherReport (mkReport true (imps.map mkFinding)) = some 4) ∧
    (∀ imps : List String, imps ≠ [] →
      "High" ∉ imps → "Medium" ∉ imps → "Low" ∉ imps →
      classifySlitherReport (mkReport true (imps.map mkFinding)) = some 5) ∧
    (classifySlitherReport
        (mkReport true [mkFinding "High", mkFinding "Low"]) = some 3) := by
  refine ⟨fun dets => rfl, rfl, ?_, ?_, ?_, ?_, rfl⟩
  · intro imps hHigh
    have hne : imps ≠ [] := by rintro rfl; simp at hHigh
    simp [classifySlitherReport, jlookup, mkReport, Json.truthy,
      mkFinding_isObj]
    rw [if_neg hne, if_pos ⟨"High", hHigh, rfl⟩]
  · intro imps hHigh hMed
    have hne : imps ≠ [] := by rintro rfl; simp at hMed
    simp [classifySlitherReport, jlookup, mkReport, Json.truthy,
      mkFinding_isObj]
    rw [if_neg hne, if_neg (not_exists_impact hHigh),
      if_pos ⟨"Medium", hMed, rfl⟩]
  · intro imps hHigh hMed hLow
    have hne : imps ≠ [] := by rintro rfl; simp at hLow
    simp [classifySlitherReport, jlookup, mkReport, Json.truthy,
      mkFinding_isObj]
    rw [if_neg hne, if_neg (not_exists_impact hHigh),
      if_neg (not_exists_impact hMed), if_pos ⟨"Low", hLow, rfl⟩]
  · intro imps hne hHigh hMed hLow
    simp [classifySlitherReport, jlookup, mkReport, Json.truthy,
      mkFinding_isObj]
    intro _
    rw [if_neg (not_exists_impact hHigh),
      if_neg (not_exists_impact hMed), if_neg (not_exists_impact hLow)]

/-- Witness for C5 at concrete reports. -/
theorem claim_C5_slither_classification_witness :
    classifySlitherReport (mkReport true (["High", "Low"].map mkFinding)) = some 3 ∧
    classifySlitherReport (mkReport true (["Medium"].map mkFinding)) = some 2 ∧
    classifySlitherReport (mkReport false []) = some 1 :=
  ⟨claim_C5_slither_classification.2.2.1 ["High", "Low"] (by simp),
   claim_C5_slither_classification.2.2.2.1 ["Medium"] (by simp) (by simp),
   claim_C5_slither_classification.1 []⟩

theorem callResultCheck_some {r : Json} {s : String}
    (h : callResultCheck r = some s) :
    pyStartsWith s "0x" = true ∧ 2 < s.length := by
  cases r with
  | str t =>
      simp only [callResultCheck] at h
      split at h
      next hc =>
        cases h
        simpa [Bool.and_eq_true] using hc
      next => cases h
  | null => cases h
  | bool b => cases h
  | num n => cases h
  | arr xs => cases h
  | obj kvs => cases h

/-- C10: the Etherscan-client operations `eth_call` and `eth_getCode` never
propagate a provider/API failure (HTTP, network, JSON decode, or API
status): every `EtherscanAPIError` is swallowed into a `None` return,
while other operations such as `get_latest_block_number` propagate the
same failures; moreover `eth_call` only ever returns a hex string strictly
longer than `"0x"`, so a successful call returning exactly `"0x"` is
indistinguishable from a failed call. -/
theorem claim_C10_eth_call_swallows_errors :
    (∀ o : HttpOutcome, etherscanRequest o = ReqOutcome.apiError →
        ethCall o = .ok none ∧ ethGetCode o = .ok none) ∧
    (etherscanRequest HttpOutcome.httpStatusError = ReqOutcome.apiError ∧
     etherscanRequest HttpOutcome.networkError = ReqOutcome.apiError ∧
     etherscanRequest HttpOutcome.jsonDecodeError = ReqOutcome.apiError) ∧
    (∀ kvs, jlookup kvs "status" = some (Json.str "0") →
        etherscanRequest (HttpOutcome.payload (Json.obj kvs)) = ReqOutcome.apiError) ∧
    (∀ o : HttpOutcome, etherscanRequest o = ReqOutcome.apiError →
        getLatestBlockNumber o = .error ()) ∧
    (∀ (o : HttpOutcome) (s : String),
        ethCall o = .ok (some s) → pyStartsWith s "0x" = true ∧ 2 < s.length) ∧
    (ethCall (HttpOutcome.payload (Json.obj [("result", Json.str "0x")])) = .ok none ∧
     ethCall HttpOutcome.networkError = .ok none) := by
  refine ⟨?_, ⟨rfl, rfl, rfl⟩, ?_, ?_, ?_, rfl, rfl⟩
  · intro o h
    constructor <;> simp [ethCall, ethGetCode, h]
  · intro kvs h
    simp [etherscanRequest, h, jsonIsStr]
  · intro o h
    simp [getLatestBlockNumber, h]
  · intro o s h
    cases hr : etherscanRequest o with
    | apiError => simp [ethCall, hr] at h
    | uncaught => simp [ethCall, hr] at h
    | ok j =>
        cases j with
        | obj kvs =>
            simp only [ethCall, hr, Except.ok.injEq] at h
            exact callResultCheck_some h
        | null => simp [ethCall, hr] at h
        | bool b => simp [ethCall, hr] at h
        | num n => simp [ethCall, hr] at h
        | str t => simp [ethCall, hr] at h
        | arr xs => simp [ethCall, hr] at h

/-- Witness for C10 at concrete inputs. -/
theorem claim_C10_eth_call_swallows_errors_witness :
    ethCall (HttpOutcome.payload (Json.obj [("status", Json.str "0")])) = .ok none ∧
    getLatestBlockNumber HttpOutcome.networkError = .error () :=
  ⟨(claim_C10_eth_call_swallows_errors.1 _
      (claim_C10_eth_call_swallows_errors.2.2.1 [("status", Json.str "0")] rfl)).1,
   claim_C10_eth_call_swallows_errors.2.2.2.1 _ rfl⟩

theorem strip_one_layer (c : String)
    (h1 : pyStartsWith c "\x7b\x7b" = true) (h2 : pyEndsWith c "\x7d\x7d" = true) :
    c.data = '\x7b' :: ((pySlice1m1 c).data ++ [ '\x7d' ]) := by
  have hp : [ '\x7b', '\x7b' ] <+: c.data := by
    rw [pyStartsWith] at h1
    exact (List.isPrefixOf_iff_prefix).mp h1
  have hs : [ '\x7d', '\x7d' ] <:+ c.data := by
    rw [pyEndsWith] at h2
    exact (List.isSuffixOf_iff_suffix).mp h2
  obtain ⟨t, ht⟩ := hp
  obtain ⟨p, hpp⟩ := hs
  cases p with
  | nil =>
      rw [← hpp] at ht
      simp at ht
  | cons q p2 =>
      have hd : c.data = (q :: p2) ++ [ '\x7d', '\x7d' ] := hpp.symm
      rw [hd] at ht
      injection ht with hq hrest
      subst hq
      show c.data = '\x7b' :: (((c.data.drop 1).dropLast) ++ [ '\x7d' ])
      rw [hd]
      have hsplit : p2 ++ [ '\x7d', '\x7d' ] = (p2 ++ [ '\x7d' ]) ++ [ '\x7d' ] := by
        simp
      simp only [List.cons_append, List.drop_succ_cons, List.drop_zero, hsplit,
        List.dropLast_concat]

theorem startsWith_two_one {c : String}
    (h : pyStartsWith c "\x7b\x7b" = true) : pyStartsWith c "\x7b" = true := by
  rw [pyStartsWith] at h ⊢
  rw [List.isPrefixOf_iff_prefix] at h ⊢
  exact List.IsPrefix.trans ⟨[ '\x7b' ], rfl⟩ h

/-- C4: for every verified contract source, the trimmed `SourceCode` is
canonicalized as follows — `{{...}}` loses exactly one layer of braces and
the remainder must parse as JSON (parse failure aborts the batch);
otherwise a `{`-prefixed string must parse as JSON and is persisted as is
(failure aborts); otherwise the text is wrapped as a single-file object.
In particular the spec's concrete multi-file example persists with exactly
one brace layer stripped. -/
theorem claim_C4_source_canonicalization :
    (∀ s : String,
      pyStartsWith (pyStrip s) "\x7b\x7b" = true →
      pyEndsWith (pyStrip s) "\x7d\x7d" = true →
        (jsonValidStr (pySlice1m1 (pyStrip s)) = true →
          canonicalizeSource s = .ok (pySlice1m1 (pyStrip s)) ∧
          (pyStrip s).data = '\x7b' :: ((pySlice1m1 (pyStrip s)).data ++ [ '\x7d' ])) ∧
        (jsonValidStr (pySlice1m1 (pyStrip s)) = false →
          canonicalizeSource s = .error ())) ∧
    (∀ s : String,
      ¬(pyStartsWith (pyStrip s) "\x7b\x7b" = true ∧
        pyEndsWith (pyStrip s) "\x7d\x7d" = true) →
      pyStartsWith (pyStrip s) "\x7b" = true →
        (jsonValidStr (pyStrip s) = true →
          canonicalizeSource s = .ok (pyStrip s)) ∧
        (jsonValidStr (pyStrip s) = false →
          canonicalizeSource s = .error ())) ∧
    (∀ s : String, pyStartsWith (pyStrip s) "\x7b" = false →
      canonicalizeSource s
        = .ok (Json.dumps (Json.obj [("source", Json.str (pyStrip s))]))) ∧
    (canonicalizeSource
        "\x7b\x7b\"sources\":\x7b\"A.sol\":\x7b\"content\":\"X\"\x7d\x7d\x7d\x7d"
      = .ok "\x7b\"sources\":\x7b\"A.sol\":\x7b\"content\":\"X\"\x7d\x7d\x7d") := by
  refine ⟨?_, ?_, ?_, by rfl⟩
  · intro s h1 h2
    constructor
    · intro hv
      exact ⟨by simp [canonicalizeSource, h1, h2, hv],
             strip_one_layer (pyStrip s) h1 h2⟩
    · intro hv
      simp [canonicalizeSource, h1, h2, hv]
  · intro s hno hstart
    have hcond : (pyStartsWith (pyStrip s) "\x7b\x7b" &&
        pyEndsWith (pyStrip s) "\x7d\x7d") = false := by
      rcases Bool.eq_false_or_eq_true (pyStartsWith (pyStrip s) "\x7b\x7b") with h | h
      · rcases Bool.eq_false_or_eq_true (pyEndsWith (pyStrip s) "\x7d\x7d") with h2 | h2
        · exact absurd ⟨h, h2⟩ hno
        · simp [h2]
      · simp [h]
    constructor
    · intro hv; simp [canonicalizeSource, hcond, hstart, hv]
    · intro hv; simp [canonicalizeSource, hcond, hstart, hv]
  · intro s hstart
    have h11 : pyStartsWith (pyStrip s) "\x7b\x7b" = false := by
      rcases Bool.eq_false_or_eq_true (pyStartsWith (pyStrip s) "\x7b\x7b") with h | h
      · rw [startsWith_two_one h] at hstart; exact Bool.noConfusion hstart
      · exact h
    simp [canonicalizeSource, h11, hstart]

/-- Witness for C4 at concrete inputs. -/
theorem claim_C4_source_canonicalization_witness :
    canonicalizeSource "\x7b\"a\": 1\x7d" = .ok "\x7b\"a\": 1\x7d" ∧
    canonicalizeSource "\x7b bad" = .error () ∧
    canonicalizeSource "pragma solidity;"
      = .ok "\x7b\"source\": \"pragma solidity;\"\x7d" := by
  refine ⟨?_, ?_, ?_⟩
  · exact (claim_C4_source_canonicalization.2.1 "\x7b\"a\": 1\x7d"
      (by decide) (by rfl)).1 (by rfl)
  · exact (claim_C4_source_canonicalization.2.1 "\x7b bad"
      (by decide) (by rfl)).2 (by rfl)
  · exact claim_C4_source_canonicalization.2.2.1 "pragma solidity;" (by rfl)

theorem validateLLMResponse_some {pr : Except Unit Json} {r : Json}
    (h : validateLLMResponse pr = some r) :
    ∃ kvs, pr = Except.ok (Json.obj kvs) ∧ r = Json.obj kvs ∧ kvs ≠ [] ∧
      (jlookup kvs "eligibility_function_abi").isSome = true := by
  cases pr with
  | error e => exact Option.noConfusion h
  | ok j =>
      cases j with
      | obj kvs =>
          simp only [validateLLMResponse] at h
          split at h
          next => exact Option.noConfusion h
          next he =>
            split at h
            next => exact Option.noConfusion h
            next hn =>
              obtain rfl : Json.obj kvs = r := Option.some.inj h
              refine ⟨kvs, rfl, rfl, ?_, ?_⟩
              · intro hnil; subst hnil; exact he rfl
              · cases hl : jlookup kvs "eligibility_function_abi" with
                | none => exact absurd (by rw [hl]; rfl) hn
                | some v => rfl
      | null => exact Option.noConfusion h
      | bool b => exact Option.noConfusion h
      | num n => exact Option.noConfusion h
      | str s => exact Option.noConfusion h
      | arr xs => exact Option.noConfusion h

theorem analyzeContract_ok_some {llm : LLMOutcome} {r : Json}
    (h : analyzeContract llm = .ok (some r)) :
    ∃ pr, llm = .response pr ∧ validateLLMResponse pr = some r := by
  cases llm with
  | apiError => exact Except.noConfusion h
  | emptyResponse => exact Option.noConfusion (Except.ok.inj h)
  | response pr => exact ⟨pr, rfl, Except.ok.inj h⟩

theorem processSource_done_some
    {abiPass : Bool} {slith : Option Int} {llm : LLMOutcome}
    {found : Option String} {meta : MetaOutcome} {now st : Int}
    {row : AirdropInsert}
    (h : processSource abiPass slith llm found meta now
        = SourceOutcome.done st (some row)) :
    ∃ llmKvs m, analyzeContract llm = .ok (some (Json.obj llmKvs)) ∧
      saveAirdropContract (stage4TokenAddress llmKvs found) m now = some row := by
  cases abiPass with
  | false => exact absurd h (by simp [processSource])
  | true =>
      cases slith with
      | none => exact absurd h (by simp [processSource])
      | some st2 =>
          simp only [processSource] at h
          split at h
          next habs => exact absurd habs (by simp)
          next =>
            split at h
            · split at h
              next e heq => exact absurd h (by simp)
              next heq => exact absurd h (by simp)
              next r heq =>
                split at h
                next llmKvs =>
                    split at h
                    · split at h
                      next => exact absurd h (by simp)
                      next m =>
                          split at h
                          next row2 heq2 =>
                              refine ⟨llmKvs, m, heq, ?_⟩
                              rw [heq2]
                              obtain ⟨-, hrow⟩ :=
                                SourceOutcome.done.inj h
                              rw [hrow]
                          next => exact absurd h (by simp)
                    · split at h
                      next row2 heq2 =>
                          refine ⟨llmKvs, none, heq, ?_⟩
                          rw [heq2]
                          obtain ⟨-, hrow⟩ := SourceOutcome.done.inj h
                          rw [hrow]
                      next => exact absurd h (by simp)
                all_goals exact absurd h (by simp)
            · exact absurd h (by simp)

theorem saveAirdropContract_col {llmKvs : List (String × Json)}
    {m : Option (List (String × Json))} {now : Int} {row : AirdropInsert}
    (h : saveAirdropContract llmKvs m now = some row) :
    row.eligibilityAbiCol = some (Json.dumps row.eligibilityAbiVal) := by
  simp only [saveAirdropContract] at h
  split at h
  next => exact Option.noConfusion h
  next ev heq =>
    obtain rfl := Option.some.inj h
    rfl

/-- C2 (amended): every row the SourceScanner persist step inserts into
`evm_airdrop_eligibility_contract` has a non-null
`eligibility_function_abi` column, namely the JSON serialization of the
LLM's `eligibility_function_abi` value; the "exactly one `address`
input" shape is NOT enforced anywhere on the insert path (see the
counterexample). -/
theorem claim_C2_eligibility_abi_nonnull
    (abiPass : Bool) (slith : Option Int) (llm : LLMOutcome)
    (found : Option String) (meta : MetaOutcome) (now st : Int)
    (row : AirdropInsert)
    (h : processSource abiPass slith llm found meta now
        = SourceOutcome.done st (some row)) :
    row.eligibilityAbiCol ≠ none ∧
    row.eligibilityAbiCol = some (Json.dumps row.eligibilityAbiVal) := by
  obtain ⟨llmKvs, m, -, hsave⟩ := processSource_done_some h
  have hc := saveAirdropContract_col hsave
  exact ⟨by simp [hc], hc⟩

/-- Witness for C2's amended theorem at a concrete run. -/
theorem claim_C2_eligibility_abi_nonnull_witness :
    c2Row.eligibilityAbiCol ≠ none ∧
    c2Row.eligibilityAbiCol = some (Json.dumps c2Row.eligibilityAbiVal) :=
  claim_C2_eligibility_abi_nonnull true (some 5)
    (LLMOutcome.response (Except.ok c2BadLLM)) none (MetaOutcome.got none)
    0 2 c2Row rfl

/-- C2 counterexample: the pipeline accepts and persists an LLM response
whose `eligibility_function_abi` has an empty `inputs` list — the row is
inserted (source marked done) although the ABI does not encode a function
with exactly one `address` input. -/
theorem claim_C2_one_address_counterexample :
    SourceOutcome.statusOf (processSource true (some 5)
        (LLMOutcome.response (Except.ok c2BadLLM)) none (MetaOutcome.got none) 0)
      = some 2 ∧
    (SourceOutcome.insertedOf (processSource true (some 5)
        (LLMOutcome.response (Except.ok c2BadLLM)) none
        (MetaOutcome.got none) 0)).map
        (fun row => encodesOneAddressInput row.eligibilityAbiVal)
      = some false :=
  ⟨rfl, rfl⟩

/-- C8: a contract source that reaches the LLM stage is marked
`processing_status = 2` with no airdrop row whenever the LLM returns the
empty object `{}`, any JSON object lacking `eligibility_function_abi`, or
a non-object; and an airdrop row is inserted only when the response
parsed to a non-empty object containing `eligibility_function_abi`. -/
theorem claim_C8_llm_empty_rejection :
    (∀ (st : Int) (found : Option String) (meta : MetaOutcome) (now : Int),
      (st = 4 ∨ st = 5) →
      processSource true (some st)
          (LLMOutcome.response (Except.ok (Json.obj []))) found meta now
        = SourceOutcome.done 2 none) ∧
    (∀ (st : Int) (found : Option String) (meta : MetaOutcome) (now : Int)
        (kvs : List (String × Json)),
      (st = 4 ∨ st = 5) →
      jlookup kvs "eligibility_function_abi" = none →
      processSource true (some st)
          (LLMOutcome.response (Except.ok (Json.obj kvs))) found meta now
        = SourceOutcome.done 2 none) ∧
    (∀ (st : Int) (found : Option String) (meta : MetaOutcome) (now : Int)
        (j : Json),
      (st = 4 ∨ st = 5) → j.isObj = false →
      processSource true (some st)
          (LLMOutcome.response (Except.ok j)) found meta now
        = SourceOutcome.done 2 none) ∧
    (∀ (abiPass : Bool) (slith : Option Int) (llm : LLMOutcome)
        (found : Option String) (meta : MetaOutcome) (now st : Int)
        (row : AirdropInsert),
      processSource abiPass slith llm found meta now
        = SourceOutcome.done st (some row) →
      ∃ kvs, llm = LLMOutcome.response (Except.ok (Json.obj kvs)) ∧
        kvs ≠ [] ∧ (jlookup kvs "eligibility_function_abi").isSome = true) := by
  refine ⟨?_, ?_, ?_, ?_⟩
  · intro st found meta now hst
    rcases hst with rfl | rfl <;> rfl
  · intro st found meta now kvs hst hkey
    rcases hst with rfl | rfl <;>
      simp [processSource, analyzeContract, validateLLMResponse, hkey]
  · intro st found meta now j hst hobj
    rcases hst with rfl | rfl <;>
      (cases j <;> first
        | rfl
        | exact absurd hobj (by simp [Json.isObj]))
  · intro abiPass slith llm found meta now st row h
    obtain ⟨llmKvs, m, ha, -⟩ := processSource_done_some h
    obtain ⟨pr, rfl, hv⟩ := analyzeContract_ok_some ha
    obtain ⟨kvs, hpr, hr, hne, hsome⟩ := validateLLMResponse_some hv
    exact ⟨kvs, by rw [hpr], hne, hsome⟩

/-- Witness for C8 at a concrete input. -/
theorem claim_C8_llm_empty_rejection_witness :
    processSource true (some 5)
        (LLMOutcome.response (Except.ok (Json.obj [])))
        none (MetaOutcome.got none) 0 = SourceOutcome.done 2 none :=
  claim_C8_llm_empty_rejection.1 5 none (MetaOutcome.got none) 0 (Or.inr rfl)

/-- C9: however the provider calls and the batch loop turn out (success,
a skipped scan, a raised `get_latest_block_number`, an invalid batch
size, or a batch failure that aborts the loop), `process_network` ends by
setting the network's `processing_status` back to 0 and refreshing
`discovered_at`; a network never stays at `processing_status = 1`. -/
theorem claim_C9_network_always_unlocked
    (cfg : ScanCfg) (net : EvmNetwork) (p : Provider)
    (blocks0 : List (Int × Int × String)) (now : Int) :
    (processNetwork cfg net p blocks0 now).network.processingStatus = 0 ∧
    (processNetwork cfg net p blocks0 now).network.discoveredAt = now :=
  ⟨rfl, rfl⟩

/-- Witness for C9 at a concrete input. -/
theorem claim_C9_network_always_unlocked_witness :
    (processNetwork c3cfg c3net c3prov [] 7).network.processingStatus = 0 ∧
    (processNetwork c3cfg c3net c3prov [] 7).network.discoveredAt = 7 :=
  claim_C9_network_always_unlocked c3cfg c3net c3prov [] 7

/-- C3 counterexample: a committed NetworkScanner batch (network at
`last_discovered = 4`, provider head 16, finality 10, so one batch
`[5, 6]`) whose block-6 response is falsy: the batch commits with
`last_discovered_block_number = 6` while the only newly inserted row is
block 5, so the maximum inserted block number (5) differs from the new
`last_discovered_block_number` (6). -/
theorem claim_C3_counterexample :
    ((processNetwork c3cfg c3net c3prov [] 0).committed.map
      (fun b => (maxBlockNum b.newRows, b.newLast))) = [(some 5, 6)] ∧
    ((processNetwork c3cfg c3net c3prov [] 0).committed.map
      (fun b => decide (maxBlockNum b.newRows = some b.newLast))) = [false] :=
  ⟨rfl, rfl⟩

theorem intRange_mem {s e k : Int} : k ∈ intRange s e ↔ s ≤ k ∧ k ≤ e := by
  simp only [intRange, List.mem_map, List.mem_range]
  constructor
  · rintro ⟨i, hi, rfl⟩
    omega
  · intro h
    exact ⟨(k - s).toNat, by omega, by omega⟩

theorem intRange_snoc {s e : Int} (h : s ≤ e) :
    intRange s e = intRange s (e - 1) ++ [e] := by
  unfold intRange
  have h1 : (e + 1 - s).toNat = (e - 1 + 1 - s).toNat + 1 := by omega
  rw [h1, List.range_succ, List.map_append]
  congr 1
  simp only [List.map_cons, List.map_nil, List.cons.injEq, and_true]
  omega

theorem mem_blocksToInsert {chain : Int} {p : Provider} {s e : Int}
    {row : Int × Int × String} (h : row ∈ blocksToInsert chain p s e) :
    ∃ k, s ≤ k ∧ k ≤ e ∧ p.resp k = BlockResp.valid row.2.1 row.2.2 ∧
      row.1 = chain := by
  simp only [blocksToInsert, batchResponses, List.filterMap_map,
    List.mem_filterMap, Function.comp] at h
  obtain ⟨k, hk, hf⟩ := h
  obtain ⟨h1, h2⟩ := intRange_mem.mp hk
  refine ⟨k, h1, h2, ?_, ?_⟩
  · cases hr : p.resp k with
    | err => rw [hr] at hf; cases hf
    | invalid => rw [hr] at hf; cases hf
    | valid n hh =>
        rw [hr] at hf
        obtain rfl := Option.some.inj hf
        rfl
  · cases hr : p.resp k with
    | err => rw [hr] at hf; cases hf
    | invalid => rw [hr] at hf; cases hf
    | valid n hh =>
        rw [hr] at hf
        obtain rfl := Option.some.inj hf
        rfl

theorem insertIgnore_sub (blocks l : List (Int × Int × String)) :
    ∀ b ∈ (insertIgnore blocks l).2, b ∈ l := by
  induction l generalizing blocks with
  | nil => intro b hb; cases hb
  | cons x rest ih =>
      intro b hb
      unfold insertIgnore at hb
      by_cases hx : hasBlock blocks x.1 x.2.1
      · rw [if_pos hx] at hb
        exact List.mem_cons_of_mem x (ih blocks b hb)
      · rw [if_neg hx] at hb
        rcases List.mem_cons.mp hb with rfl | hb2
        · exact List.mem_cons_self b rest
        · exact List.mem_cons_of_mem x (ih (blocks ++ [x]) b hb2)

theorem hasBlock_append (bs : List (Int × Int × String))
    (x : Int × Int × String) (c n : Int) :
    hasBlock (bs ++ [x]) c n
      = (hasBlock bs c n || (decide (x.1 = c) && decide (x.2.1 = n))) := by
  simp [hasBlock, List.any_append]

theorem insertIgnore_last_mem (blocks l : List (Int × Int × String))
    (b : Int × Int × String)
    (hb : hasBlock blocks b.1 b.2.1 = false)
    (hprev : ∀ x ∈ l, x.1 ≠ b.1 ∨ x.2.1 ≠ b.2.1) :
    b ∈ (insertIgnore blocks (l ++ [b])).2 := by
  induction l generalizing blocks with
  | nil =>
      simp only [List.nil_append, insertIgnore, hb]
      simp [insertIgnore]
  | cons x rest ih =>
      simp only [List.cons_append, insertIgnore]
      by_cases hx : hasBlock blocks x.1 x.2.1
      · rw [if_pos hx]
        exact ih blocks hb (fun y hy => hprev y (List.mem_cons_of_mem x hy))
      · rw [if_neg hx]
        refine List.mem_cons_of_mem x ?_
        have hb2 : hasBlock (blocks ++ [x]) b.1 b.2.1 = false := by
          rw [hasBlock_append, hb]
          rcases hprev x (List.mem_cons_self x rest) with hne | hne <;>
            simp [hne]
        exact ih (blocks ++ [x]) hb2
          (fun y hy => hprev y (List.mem_cons_of_mem x hy))

theorem maxBlockNum_le {rows : List (Int × Int × String)} {m : Int}
    (h : maxBlockNum rows = some m) : ∀ r ∈ rows, r.2.1 ≤ m := by
  induction rows generalizing m with
  | nil => intro r hr; cases hr
  | cons b rest ih =>
      intro r hr
      unfold maxBlockNum at h
      cases hmx : maxBlockNum rest with
      | none =>
          rw [hmx] at h
          obtain rfl := Option.some.inj h
          rcases List.mem_cons.mp hr with rfl | hr2
          · exact le_refl _
          · cases rest with
            | nil => cases hr2
            | cons c cr => exact absurd hmx (by unfold maxBlockNum; split <;> simp)
      | some m2 =>
          rw [hmx] at h
          obtain rfl := Option.some.inj h
          rcases List.mem_cons.mp hr with rfl | hr2
          · exact le_max_left _ _
          · exact le_trans (ih hmx r hr2) (le_max_right _ _)

theorem maxBlockNum_attained {rows : List (Int × Int × String)} {m : Int}
    (h : maxBlockNum rows = some m) : ∃ r ∈ rows, r.2.1 = m := by
  induction rows generalizing m with
  | nil => cases h
  | cons b rest ih =>
      unfold maxBlockNum at h
      cases hmx : maxBlockNum rest with
      | none =>
          rw [hmx] at h
          obtain rfl := Option.some.inj h
          exact ⟨b, List.mem_cons_self b rest, rfl⟩
      | some m2 =>
          rw [hmx] at h
          obtain rfl := Option.some.inj h
          rcases le_or_lt b.2.1 m2 with hle | hlt
          · obtain ⟨r, hr, hrm⟩ := ih hmx
            exact ⟨r, List.mem_cons_of_mem b hr, by rw [hrm]; omega⟩
          · exact ⟨b, List.mem_cons_self b rest, by omega⟩

theorem maxBlockNum_eq {rows : List (Int × Int × String)} {m : Int}
    (hall : ∀ r ∈ rows, r.2.1 ≤ m) (hmem : ∃ r ∈ rows, r.2.1 = m) :
    maxBlockNum rows = some m := by
  cases hmx : maxBlockNum rows with
  | none =>
      obtain ⟨r, hr, -⟩ := hmem
      cases rows with
      | nil => cases hr
      | cons b rest => exact absurd hmx (by unfold maxBlockNum; split <;> simp)
  | some m2 =>
      obtain ⟨r, hr, hrm⟩ := hmem
      have h1 : m ≤ m2 := hrm ▸ maxBlockNum_le hmx r hr
      obtain ⟨r2, hr2, hrm2⟩ := maxBlockNum_attained hmx
      have h2 : m2 ≤ m := hrm2 ▸ hall r2 hr2
      rw [show m2 = m by omega]

theorem processBatch_good {chain : Int} {p : Provider} {st : ScanState}
    {s e : Int} {st2 : ScanState}
    (hacc : ∀ k n h, p.resp k = BlockResp.valid n h → n = k)
    (hse : s ≤ e) (hold : st.last = none ∨ st.last = some (s - 1))
    (h : processBatch chain p st s e = some st2) :
    st2.last = some e ∧
    ∃ rec, st2.committed = st.committed ++ [rec] ∧ GoodBatch chain p rec := by
  unfold processBatch at h
  split at h
  next => exact Option.noConfusion h
  next herr =>
    obtain rfl := Option.some.inj h
    refine ⟨rfl, ⟨_, rfl, ?_, ?_, ?_, ?_⟩⟩
    · rfl
    · intro l hl
      try dsimp only at hl ⊢
      rcases hold with hn | hsm
      · rw [hn] at hl; cases hl
      · rw [hsm] at hl
        obtain rfl := Option.some.inj hl
        omega
    · intro row hrow
      try dsimp only at hrow ⊢
      have hins := insertIgnore_sub st.blocks (blocksToInsert chain p s e) row hrow
      obtain ⟨k, h1, h2, hrk, hc⟩ := mem_blocksToInsert hins
      have hnum : row.2.1 = k := hacc k _ _ hrk
      exact ⟨hc, by omega, by omega⟩
    · intro hsh hre hfresh
      try dsimp only at hre hfresh ⊢
      have hsplit : blocksToInsert chain p s e
          = blocksToInsert chain p s (e - 1) ++ [(chain, e, hsh)] := by
        unfold blocksToInsert batchResponses
        rw [intRange_snoc hse, List.map_append, List.filterMap_append]
        congr 1
        simp [hre]
      have hmem : (chain, e, hsh)
          ∈ (insertIgnore st.blocks (blocksToInsert chain p s e)).2 := by
        rw [hsplit]
        apply insertIgnore_last_mem
        · exact hfresh
        · intro x hx
          obtain ⟨k, hk1, hk2, hrk, -⟩ := mem_blocksToInsert hx
          have hnum : x.2.1 = k := hacc k _ _ hrk
          right
          try dsimp only
          omega
      refine maxBlockNum_eq ?_ ⟨(chain, e, hsh), hmem, rfl⟩
      intro r hr
      have hins := insertIgnore_sub st.blocks (blocksToInsert chain p s e) r hr
      obtain ⟨k, h1, h2, hrk, -⟩ := mem_blocksToInsert hins
      have hnum : r.2.1 = k := hacc k _ _ hrk
      try dsimp only
      omega

theorem batchRanges_empty (fuel : Nat) (start safe bs : Int)
    (h : start > safe) : batchRanges fuel start safe bs = [] := by
  cases fuel with
  | zero => rfl
  | succ fuel => simp [batchRanges, h]

theorem batchRanges_chained (fuel : Nat) (start safe bs : Int)
    (hbs : 1 ≤ bs) (l : Option Int)
    (hl : l = none ∨ l = some (start - 1)) :
    Chained l (batchRanges fuel start safe bs) := by
  induction fuel generalizing start l with
  | zero => exact Chained.nil l
  | succ fuel ih =>
      unfold batchRanges
      split
      · exact Chained.nil l
      · next hgt =>
          refine Chained.cons _ _ _ _ (by omega) hl ?_
          by_cases hover : start + bs > safe
          · rw [batchRanges_empty fuel _ _ _ hover]
            exact Chained.nil _
          · have hmin : min (start + bs - 1) safe = start + bs - 1 := by omega
            rw [hmin]
            exact ih (start + bs) (some (start + bs - 1)) (Or.inr rfl)

theorem loopGo_committed (chain : Int) (p : Provider)
    (hacc : ∀ k n h, p.resp k = BlockResp.valid n h → n = k) :
    ∀ (ranges : List (Int × Int)) (st : ScanState),
      Chained st.last ranges →
      (∀ b ∈ st.committed, GoodBatch chain p b) →
      ∀ b ∈ (loopGo chain p st ranges).1.committed, GoodBatch chain p b := by
  intro ranges
  induction ranges with
  | nil => intro st _ hst b hb; exact hst b hb
  | cons se rest ih =>
      intro st hch hst b hb
      obtain ⟨s, e⟩ := se
      cases hch with
      | cons _ _ _ _ hse hold hrest =>
          unfold loopGo at hb
          cases hpb : processBatch chain p st s e with
          | none => rw [hpb] at hb; exact hst b hb
          | some st2 =>
              rw [hpb] at hb
              obtain ⟨hlast, rec, hcom, hgood⟩ :=
                processBatch_good hacc hse hold hpb
              refine ih st2 (hlast ▸ hrest) ?_ b hb
              intro b2 hb2
              rw [hcom] at hb2
              rcases List.mem_append.mp hb2 with h1 | h2
              · exact hst b2 h1
              · rw [List.mem_singleton.mp h2]
                exact hgood

theorem runRanges_committed {chain : Int} {p : Provider} {st0 : ScanState}
    {start safe bs : Int}
    (hacc : ∀ k n h, p.resp k = BlockResp.valid n h → n = k)
    (hl : st0.last = none ∨ st0.last = some (start - 1))
    (hcom : st0.committed = [])
    (b : BatchRec)
    (hb : b ∈ (runRanges chain p st0 start safe bs).1.committed) :
    GoodBatch chain p b := by
  unfold runRanges at hb
  split at hb
  · rw [hcom] at hb; cases hb
  · split at hb
    · rw [hcom] at hb; cases hb
    · next hbs0 hbsneg =>
        refine loopGo_committed chain p hacc _ st0 ?_ ?_ b hb
        · exact batchRanges_chained _ _ _ _ (by omega) _ hl
        · intro b2 hb3
          rw [hcom] at hb3
          cases hb3

/-- C3 (amended): for every batch the NetworkScanner commits — assuming
each valid provider response reports the block number that was requested
— the new `last_discovered_block_number` equals the batch's end block and
strictly exceeds the old value; every newly inserted `evm_block` row lies
within the batch range (hence at most the new
`last_discovered_block_number`); and the maximum newly inserted block
number EQUALS the new `last_discovered_block_number` exactly under the
extra conditions the counterexample shows to be necessary: the batch-end
block's response is valid and that block was not already present. -/
theorem claim_C3_committed_batch_invariant
    (cfg : ScanCfg) (net : EvmNetwork) (p : Provider)
    (blocks0 : List (Int × Int × String)) (now : Int)
    (hacc : ∀ k n h, p.resp k = BlockResp.valid n h → n = k) :
    ∀ b ∈ (processNetwork cfg net p blocks0 now).committed,
      b.newLast = b.bend ∧
      (∀ l, b.oldLast = some l → l < b.newLast) ∧
      (∀ row ∈ b.newRows,
          row.1 = net.chainId ∧ b.bstart ≤ row.2.1 ∧ row.2.1 ≤ b.newLast) ∧
      (∀ hsh, p.resp b.bend = BlockResp.valid b.bend hsh →
          hasBlock b.preBlocks net.chainId b.bend = false →
          maxBlockNum b.newRows = some b.newLast) := by
  intro b hb
  have hb2 : b ∈ (scanBody cfg net p blocks0).1.committed := hb
  unfold scanBody at hb2
  cases hl : p.latest with
  | error err => rw [hl] at hb2; cases hb2
  | ok latest =>
      rw [hl] at hb2
      simp only at hb2
      split at hb2
      · cases hb2
      · next hstart =>
          refine runRanges_committed hacc ?_ rfl _ hb2
          cases hld : net.lastDiscovered with
          | none => exact Or.inl rfl
          | some l =>
              refine Or.inr ?_
              simp [hld]

/-- An accurate provider for the C3 witness run: every block is answered
with its own number. -/
def c3goodProv : Provider :=
  { latest := .ok 16, resp := fun k => BlockResp.valid k "0xh" }

/-- The single batch committed by the C3 witness run. -/
def c3b : BatchRec :=
  ((processNetwork c3cfg c3net c3goodProv [] 0).committed).headD
    ⟨0, 0, none, [], [], 0⟩

/-- Witness for C3's amended theorem at a concrete run. -/
theorem claim_C3_committed_batch_invariant_witness :
    maxBlockNum c3b.newRows = some c3b.newLast ∧ c3b.newLast = c3b.bend :=
  have hacc : ∀ k n h, c3goodProv.resp k = BlockResp.valid n h → n = k :=
    fun k n h hh =>
      (BlockResp.valid.inj
        (show BlockResp.valid k "0xh" = BlockResp.valid n h from hh)).1.symm
  have hmem : c3b ∈ (processNetwork c3cfg c3net c3goodProv [] 0).committed :=
    List.mem_singleton.mpr rfl
  have hg := claim_C3_committed_batch_invariant c3cfg c3net c3goodProv [] 0
    hacc c3b hmem
  ⟨hg.2.2.2 "0xh" rfl rfl, hg.1⟩

theorem processBatch_single {chain : Int} {p : Provider} {st : ScanState}
    {k : Int} {hsh : String}
    (hresp : p.resp k = BlockResp.valid k hsh)
    (hfresh : hasBlock st.blocks chain k = false) :
    processBatch chain p st k k = some {
      blocks := st.blocks ++ [(chain, k, hsh)]
      last := some k
      committed := st.committed ++
        [⟨k, k, st.last, st.blocks, [(chain, k, hsh)], k⟩] } := by
  have hir : intRange k k = [k] := by
    unfold intRange
    rw [show (k + 1 - k).toNat = 1 from by omega]
    rw [show List.range 1 = [0] from rfl, List.map_singleton]
    norm_num
  have hbr : batchResponses p k k = [BlockResp.valid k hsh] := by
    unfold batchResponses
    rw [hir, List.map_singleton, hresp]
  have hbti : blocksToInsert chain p k k = [(chain, k, hsh)] := by
    unfold blocksToInsert
    rw [hbr]
    rfl
  unfold processBatch
  rw [hbr, hbti]
  simp [BlockResp.isErr, insertIgnore, hfresh]

/-- C7: a cold-start network (`last_discovered_block_number` null) with
finality depth `f` and provider head `L` ingests exactly one block in
that run: one `evm_block` row for block `L − f` is inserted and
`last_discovered_block_number` becomes `L − f`. -/
theorem claim_C7_cold_start
    (cfg : ScanCfg) (net : EvmNetwork) (p : Provider)
    (blocks0 : List (Int × Int × String)) (now L : Int) (hsh : String)
    (hlast : net.lastDiscovered = none)
    (hlatest : p.latest = Except.ok L)
    (hresp : p.resp (L - net.finalityDepth)
      = BlockResp.valid (L - net.finalityDepth) hsh)
    (hfresh : hasBlock blocks0 net.chainId (L - net.finalityDepth) = false)
    (hcu : 1 ≤ cfg.catchUpBatchSize) (hfb : 1 ≤ cfg.followBatchSize) :
    (processNetwork cfg net p blocks0 now).network.lastDiscovered
      = some (L - net.finalityDepth) ∧
    (processNetwork cfg net p blocks0 now).blocks
      = blocks0 ++ [(net.chainId, L - net.finalityDepth, hsh)] ∧
    (processNetwork cfg net p blocks0 now).committed.map
        (fun b => (b.bstart, b.bend, b.newRows, b.newLast))
      = [(L - net.finalityDepth, L - net.finalityDepth,
          [(net.chainId, L - net.finalityDepth, hsh)], L - net.finalityDepth)] := by
  have hsafe : ∀ x : Int, x = L - net.finalityDepth → x = L - net.finalityDepth :=
    fun x h => h
  have hbs : 1 ≤ (if L - net.finalityDepth - (L - net.finalityDepth) + 1
      > cfg.catchUpThreshold then cfg.catchUpBatchSize
      else cfg.followBatchSize) := by
    split <;> assumption
  have hr1 : batchRanges
      ((L - net.finalityDepth) + 1 - (L - net.finalityDepth)).toNat
      (L - net.finalityDepth) (L - net.finalityDepth)
      (if L - net.finalityDepth - (L - net.finalityDepth) + 1
        > cfg.catchUpThreshold then cfg.catchUpBatchSize
       else cfg.followBatchSize)
      = [(L - net.finalityDepth, L - net.finalityDepth)] := by
    rw [show ((L - net.finalityDepth) + 1 - (L - net.finalityDepth)).toNat = 1
      from by omega]
    unfold batchRanges
    rw [if_neg (lt_irrefl (L - net.finalityDepth))]
    rw [show min ((L - net.finalityDepth)
      + (if L - net.finalityDepth - (L - net.finalityDepth) + 1
        > cfg.catchUpThreshold then cfg.catchUpBatchSize
       else cfg.followBatchSize) - 1) (L - net.finalityDepth)
      = L - net.finalityDepth from by omega]
    rfl
  have hsb : scanBody cfg net p blocks0
      = ({ blocks := blocks0 ++ [(net.chainId, L - net.finalityDepth, hsh)],
           last := some (L - net.finalityDepth),
           committed := [⟨L - net.finalityDepth, L - net.finalityDepth,
             none, blocks0, [(net.chainId, L - net.finalityDepth, hsh)],
             L - net.finalityDepth⟩] }, false) := by
    unfold scanBody
    rw [hlatest]
    simp only [hlast]
    rw [if_neg (lt_irrefl (L - net.finalityDepth))]
    unfold runRanges
    rw [if_neg (by omega : ¬(if L - net.finalityDepth
        - (L - net.finalityDepth) + 1 > cfg.catchUpThreshold
        then cfg.catchUpBatchSize else cfg.followBatchSize) = 0)]
    rw [if_neg (by omega : ¬(if L - net.finalityDepth
        - (L - net.finalityDepth) + 1 > cfg.catchUpThreshold
        then cfg.catchUpBatchSize else cfg.followBatchSize) < 0)]
    rw [hr1]
    unfold loopGo
    rw [processBatch_single hresp hfresh]
    rfl
  refine ⟨?_, ?_, ?_⟩
  · show (scanBody cfg net p blocks0).1.last = _
    rw [hsb]
  · show (scanBody cfg net p blocks0).1.blocks = _
    rw [hsb]
  · show ((scanBody cfg net p blocks0).1.committed).map _ = _
    rw [hsb]
    rfl

/-- Witness for C7 at the spec's concrete scenario: chain 1,
`last_discovered = NULL`, finality 10, provider head 100 — one row for
block 90 and `last_discovered_block_number = 90`. -/
theorem claim_C7_cold_start_witness :
    (processNetwork ⟨100, 50, 5⟩
        ⟨1, 0, none, 10, 0⟩
        ⟨.ok 100, fun k => BlockResp.valid k "0xabc"⟩ [] 0).network.lastDiscovered
      = some 90 ∧
    (processNetwork ⟨100, 50, 5⟩
        ⟨1, 0, none, 10, 0⟩
        ⟨.ok 100, fun k => BlockResp.valid k "0xabc"⟩ [] 0).blocks
      = [] ++ [(1, 90, "0xabc")] :=
  have h := claim_C7_cold_start ⟨100, 50, 5⟩ ⟨1, 0, none, 10, 0⟩
    ⟨.ok 100, fun k => BlockResp.valid k "0xabc"⟩ [] 0 100 "0xabc"
    rfl rfl rfl rfl (by decide) (by decide)
  ⟨h.1, h.2.1⟩

theorem startsWith0x_nonempty {s : String}
    (h : pyStartsWith s "0x" = true) : s.data.isEmpty = false := by
  rw [pyStartsWith] at h
  cases hd : s.data with
  | nil => rw [hd] at h; exact Bool.noConfusion h
  | cons c cs => rfl

/-- C6: for every row selected by the DateScanner's claim-end step
(`active_status = 1`, `claim_end_timestamp` null, `claim_end_getter_abi`
not null) and every `eth_call` result: a decoded value above
10,000,000,000 is rejected as garbage — `claim_end_getter_abi` is set to
null while `claim_end_timestamp` and `active_status` stay unchanged;
a valid (nonzero, in-range) decoded timestamp is stored and
`active_status` is recomputed to 0 exactly when the timestamp is ≤ now. -/
theorem claim_C6_claim_end_fetch
    (now : Int) (row : EligRow) (r : Option String)
    (hsel : row.activeStatus = 1 ∧ row.claimEndTimestamp = none ∧
      row.claimEndGetterAbi ≠ none) :
    (∀ s v, r = some s → pyStartsWith s "0x" = true →
      pyIntHex s = some v → v > 10000000000 →
      (processClaimEndRow now row (ApiResult.res r)).claimEndGetterAbi = none ∧
      (processClaimEndRow now row (ApiResult.res r)).claimEndTimestamp = none ∧
      (processClaimEndRow now row (ApiResult.res r)).activeStatus
        = row.activeStatus) ∧
    (∀ t, decodeTimestampFromEthCall r = some t → t ≠ 0 →
      (processClaimEndRow now row (ApiResult.res r)).claimEndTimestamp = some t ∧
      (processClaimEndRow now row (ApiResult.res r)).activeStatus
        = (if t ≤ now then 0 else 1) ∧
      (processClaimEndRow now row (ApiResult.res r)).claimEndGetterAbi
        = row.claimEndGetterAbi) := by
  constructor
  · intro s v hr hstart hhex hbig
    subst hr
    have hne := startsWith0x_nonempty hstart
    have hcond : (s.data.isEmpty || !pyStartsWith s "0x") = false := by
      rw [hne, hstart]
      rfl
    have hdec : decodeTimestampFromEthCall (some s) = none := by
      simp only [decodeTimestampFromEthCall, hcond]
      rw [if_neg (by decide : ¬(false = true))]
      rw [hhex]
      show (if v = 0 then some 0
            else if v > 10000000000 then none else some v) = none
      rw [if_neg (by omega : ¬v = 0), if_pos hbig]
    simp only [processClaimEndRow, hdec]
    exact ⟨rfl, hsel.2.1, rfl⟩
  · intro t hdec hne0
    simp only [processClaimEndRow, hdec, if_neg hne0]
    exact ⟨rfl, rfl, rfl⟩

/-- Witness for C6 at concrete inputs: a 64-bit all-ones word nulls the
getter ABI and leaves the timestamp untouched; `0x64` stores 100 and
deactivates the row (100 ≤ 1000). -/
theorem claim_C6_claim_end_fetch_witness :
    (processClaimEndRow 1000 ⟨some "abi", none, none, none, 1⟩
        (ApiResult.res (some "0xffffffffffffffff"))).claimEndGetterAbi = none ∧
    (processClaimEndRow 1000 ⟨some "abi", none, none, none, 1⟩
        (ApiResult.res (some "0x64"))).claimEndTimestamp = some 100 :=
  have h1 := (claim_C6_claim_end_fetch 1000 ⟨some "abi", none, none, none, 1⟩
      (some "0xffffffffffffffff") ⟨rfl, rfl, by simp⟩).1
      "0xffffffffffffffff" 18446744073709551615 rfl rfl rfl (by decide)
  have h2 := (claim_C6_claim_end_fetch 1000 ⟨some "abi", none, none, none, 1⟩
      (some "0x64") ⟨rfl, rfl, by simp⟩).2 100 rfl (by decide)
  ⟨h1.1, h2.1⟩

/-- C1 (code bug): the path-traversal guard of
`_prepare_source_files` uses `os.path.commonprefix`, a character-wise
comparison.  The spec's example key `../../etc/x.sol` is rejected, but a
key that resolves to a SIBLING directory whose name extends the temp
root's name passes the guard and is written OUTSIDE the temp root:
with root `/tmp/tmpabc123`, the key `../tmpabc123evil/x.sol` resolves to
`/tmp/tmpabc123evil/x.sol`, shares the root as a string prefix, and is
written there although it is not inside the root. -/
theorem claim_C1_path_guard_bypass :
    prepareEntryWrite "/tmp/tmpabc123" "../../etc/x.sol" = none ∧
    prepareEntryWrite "/tmp/tmpabc123" "../tmpabc123evil/x.sol"
      = some "/tmp/tmpabc123evil/x.sol" ∧
    insideRoot "/tmp/tmpabc123" "/tmp/tmpabc123evil/x.sol" = false :=
  ⟨rfl, rfl, rfl⟩
